import Mathlib

/-!
Verification of the Monte Carlo race-outcome engine
(`src/montecarlo/parallel_monte_carlo.py` and `src/montecarlo/gpu_monte_carlo.py`).

The Python code is shallowly embedded: machine floats become exact rationals
(`ℚ`), the NumPy / Torch random streams become explicit oracle parameters
(one `TrialRand` record per trial, addressed by the worker seed and the trial
index inside the worker), and Python exceptions become `Except String`.
Every Gaussian sample `np.random.normal(0, lap_time_variance)` (resp.
`torch.randn() * lap_time_var`) is supplied directly by the oracle as the
field `noise`; discrete draws (`np.random.choice`, `torch.randint`) are
inverse-cdf sampling of the drawn probability tables from a uniform supplied
by the oracle.
-/

/-- `DriverState` from `parallel_monte_carlo.py` (dataclass, lines 34-44). -/
structure DriverState where
  driver_number : Int
  current_lap : Int
  position : Int
  tire_age : Int
  tire_compound : String
  fuel_load : ℚ
  recent_lap_times : List ℚ
  pit_stops_made : Int
deriving Repr, DecidableEq

/-- `SimulationConfig` from `parallel_monte_carlo.py` (dataclass, lines 25-31).
`n_cores` is the field the spec calls `n_workers`; `-1` means "auto". -/
structure SimulationConfig where
  n_simulations : Int
  n_cores : Int
  confidence_level : ℚ
  random_seed : Int
deriving Repr, DecidableEq

/-- The random draws consumed by one trial, in the order the source draws them:
the Gaussian lap-time perturbation (already scaled by `lap_time_variance`,
i.e. the value of `np.random.normal(0, lap_time_variance)`), the uniform used
by the position-change tier draw, the uniform deciding the incident Bernoulli,
and the uniform used by the incident-delta draw. -/
structure TrialRand where
  noise : ℚ
  tierU : ℚ
  incidentU : ℚ
  incChoiceU : ℚ
deriving Repr, DecidableEq

/-- A random stream family: seed ↦ trial index ↦ draws for that trial.
`np.random.seed(seed)` in a worker makes its stream a function of the seed. -/
def RandFamily : Type := Int → Nat → TrialRand

/-- Inverse-cdf sampling of a finite table `[(value, prob), ...]` at a
uniform `u`: models `np.random.choice(values, p=probs)` (and, with a uniform
table, `np.random.choice(values)` and `torch.randint`). -/
def sampleChoice : List (Int × ℚ) → ℚ → Int
  | [], _ => 0
  | [(v, _)], _ => v
  | (v, p) :: rest, u => if u < p then v else sampleChoice rest (u - p)

/-- Probability that a table assigns to a value (sum over matching entries). -/
def pmfProb (pmf : List (Int × ℚ)) (v : Int) : ℚ :=
  ((pmf.filter (fun pr => pr.1 = v)).map Prod.snd).sum

/-- Total mass of a table. -/
def pmfTotal (pmf : List (Int × ℚ)) : ℚ := (pmf.map Prod.snd).sum

/-! ### Per-trial model of the CPU-parallel backend
(`_run_simulation_chunk`, `parallel_monte_carlo.py` lines 213-270). -/

/-- `tire_deg_rate = {'SOFT': 0.08, 'MEDIUM': 0.05, 'HARD': 0.03}` with
`.get(compound, 0.05)` (lines 231-236). -/
def tireDegRatePar (compound : String) : ℚ :=
  if compound = "SOFT" then 8/100
  else if compound = "MEDIUM" then 5/100
  else if compound = "HARD" then 3/100
  else 5/100

/-- `lap_time_delta < -0.5` threshold (line 252). -/
def parFastThreshold : ℚ := -(1/2)

/-- `lap_time_delta > 0.5` threshold (line 255). -/
def parSlowThreshold : ℚ := 1/2

/-- `np.random.binomial(1, 0.05)` incident probability (line 263). -/
def parIncidentProb : ℚ := 5/100

/-- `np.random.choice([-2, -1, 0], p=[0.3, 0.5, 0.2])` (line 254). -/
def parFastTier : List (Int × ℚ) := [(-2, 3/10), (-1, 5/10), (0, 2/10)]

/-- `np.random.choice([0, 1, 2], p=[0.2, 0.5, 0.3])` (line 257). -/
def parSlowTier : List (Int × ℚ) := [(0, 2/10), (1, 5/10), (2, 3/10)]

/-- `np.random.choice([-1, 0, 1], p=[0.2, 0.6, 0.2])` (line 260). -/
def parNeutralTier : List (Int × ℚ) := [(-1, 2/10), (0, 6/10), (1, 2/10)]

/-- `np.random.choice([-2, -1, 1, 2, 3], p=[0.1, 0.2, 0.3, 0.2, 0.2])`
(line 265). -/
def parIncidentTable : List (Int × ℚ) :=
  [(-2, 1/10), (-1, 2/10), (1, 3/10), (2, 2/10), (3, 2/10)]

/-- `np.mean(driver_state.recent_lap_times) if driver_state.recent_lap_times
else 90.0` (line 227). -/
def avgLapTime (st : DriverState) : ℚ :=
  if st.recent_lap_times = [] then 90
  else st.recent_lap_times.sum / st.recent_lap_times.length

/-- One trial of `_run_simulation_chunk`'s loop body (lines 239-268):
returns `(sim_lap_time, final_position)`. -/
def parallelTrial (st : DriverState) (r : TrialRand) : ℚ × Int :=
  let avg := avgLapTime st
  let deg_rate := tireDegRatePar st.tire_compound
  let tire_effect := (st.tire_age : ℚ) * deg_rate
  let fuel_effect := st.fuel_load * (3/100)
  let sim_lap_time := avg + tire_effect + fuel_effect + r.noise
  let lap_time_delta := sim_lap_time - avg
  let base_change :=
    if lap_time_delta < parFastThreshold then sampleChoice parFastTier r.tierU
    else if lap_time_delta > parSlowThreshold then sampleChoice parSlowTier r.tierU
    else sampleChoice parNeutralTier r.tierU
  let position_change :=
    if r.incidentU < parIncidentProb then
      base_change + sampleChoice parIncidentTable r.incChoiceU
    else base_change
  let final_position := max 1 (min 20 (st.position + position_change))
  (sim_lap_time, final_position)

/-! ### Per-trial model of the accelerator (GPU) backend
(`GPUMonteCarloEngine._run_gpu_simulation`, `gpu_monte_carlo.py`
lines 118-214), read per vector element. -/

/-- `tire_deg_rates = {'SOFT': 0.08, 'MEDIUM': 0.05, 'HARD': 0.03}` with
`.get(tire_compound, 0.05)` (lines 134-135). -/
def tireDegRateGpu (compound : String) : ℚ :=
  if compound = "SOFT" then 8/100
  else if compound = "MEDIUM" then 5/100
  else if compound = "HARD" then 3/100
  else 5/100

/-- `lap_time_delta < -0.5` mask (line 154). -/
def gpuFastThreshold : ℚ := -(1/2)

/-- `lap_time_delta > 0.5` mask (line 158). -/
def gpuSlowThreshold : ℚ := 1/2

/-- `torch.rand(n) < 0.05` incident mask (line 166). -/
def gpuIncidentProb : ℚ := 5/100

/-- `torch.randint(-2, 1, ...)`: uniform over {-2, -1, 0} (line 155). -/
def gpuFastTier : List (Int × ℚ) := [(-2, 1/3), (-1, 1/3), (0, 1/3)]

/-- `torch.randint(0, 3, ...)`: uniform over {0, 1, 2} (line 159). -/
def gpuSlowTier : List (Int × ℚ) := [(0, 1/3), (1, 1/3), (2, 1/3)]

/-- `torch.randint(-1, 2, ...)`: uniform over {-1, 0, 1} (line 163). -/
def gpuNeutralTier : List (Int × ℚ) := [(-1, 1/3), (0, 1/3), (1, 1/3)]

/-- `torch.randint(-2, 4, ...)`: uniform over {-2, -1, 0, 1, 2, 3}
(line 167). -/
def gpuIncidentTable : List (Int × ℚ) :=
  [(-2, 1/6), (-1, 1/6), (0, 1/6), (1, 1/6), (2, 1/6), (3, 1/6)]

/-- One element of the vectorized GPU batch (lines 141-175):
returns `(sim_lap_time, final_position)`. -/
def gpuTrial (st : DriverState) (r : TrialRand) : ℚ × Int :=
  let base_lap_time := avgLapTime st
  let deg_rate := tireDegRateGpu st.tire_compound
  let tire_effect := (st.tire_age : ℚ) * deg_rate
  let fuel_effect := st.fuel_load * (3/100)
  let sim_lap_time := base_lap_time + tire_effect + fuel_effect + r.noise
  let lap_time_delta := sim_lap_time - base_lap_time
  let base_change :=
    if lap_time_delta < gpuFastThreshold then sampleChoice gpuFastTier r.tierU
    else if lap_time_delta > gpuSlowThreshold then sampleChoice gpuSlowTier r.tierU
    else sampleChoice gpuNeutralTier r.tierU
  let position_change :=
    if r.incidentU < gpuIncidentProb then
      base_change + sampleChoice gpuIncidentTable r.incChoiceU
    else base_change
  let final_position := max 1 (min 20 (st.position + position_change))
  (sim_lap_time, final_position)

/-! ### Per-trial model of the accelerator-fallback backend
(`GPUMonteCarloEngine._run_cpu_simulation`, `gpu_monte_carlo.py`
lines 216-285), read per vector element. -/

/-- `tire_deg_rates` with `.get(tire_compound, 0.05)` (lines 227-228). -/
def tireDegRateFb (compound : String) : ℚ :=
  if compound = "SOFT" then 8/100
  else if compound = "MEDIUM" then 5/100
  else if compound = "HARD" then 3/100
  else 5/100

/-- `lap_time_delta < -0.5` mask (line 241). -/
def fbFastThreshold : ℚ := -(1/2)

/-- `lap_time_delta > 0.5` mask (line 242). -/
def fbSlowThreshold : ℚ := 1/2

/-- `np.random.random(n) < 0.05` incident mask (line 250). -/
def fbIncidentProb : ℚ := 5/100

/-- `np.random.choice([-2, -1, 0], size)` with no `p`: uniform (line 245). -/
def fbFastTier : List (Int × ℚ) := [(-2, 1/3), (-1, 1/3), (0, 1/3)]

/-- `np.random.choice([0, 1, 2], size)` with no `p`: uniform (line 246). -/
def fbSlowTier : List (Int × ℚ) := [(0, 1/3), (1, 1/3), (2, 1/3)]

/-- `np.random.choice([-1, 0, 1], size)` with no `p`: uniform (line 247). -/
def fbNeutralTier : List (Int × ℚ) := [(-1, 1/3), (0, 1/3), (1, 1/3)]

/-- `np.random.choice([-2, -1, 1, 2, 3], size)` with no `p`: uniform
(line 251). -/
def fbIncidentTable : List (Int × ℚ) :=
  [(-2, 1/5), (-1, 1/5), (1, 1/5), (2, 1/5), (3, 1/5)]

/-- One element of the vectorized fallback batch (lines 230-253):
returns `(sim_lap_time, final_position)`. -/
def fallbackTrial (st : DriverState) (r : TrialRand) : ℚ × Int :=
  let base_lap_time := avgLapTime st
  let deg_rate := tireDegRateFb st.tire_compound
  let tire_effect := (st.tire_age : ℚ) * deg_rate
  let fuel_effect := st.fuel_load * (3/100)
  let sim_lap_time := base_lap_time + tire_effect + fuel_effect + r.noise
  let lap_time_delta := sim_lap_time - base_lap_time
  let base_change :=
    if lap_time_delta < fbFastThreshold then sampleChoice fbFastTier r.tierU
    else if lap_time_delta > fbSlowThreshold then sampleChoice fbSlowTier r.tierU
    else sampleChoice fbNeutralTier r.tierU
  let position_change :=
    if r.incidentU < fbIncidentProb then
      base_change + sampleChoice fbIncidentTable r.incChoiceU
    else base_change
  let final_position := max 1 (min 20 (st.position + position_change))
  (sim_lap_time, final_position)

/-! ### Aggregator
(`parallel_monte_carlo.py` lines 157-180, `gpu_monte_carlo.py`
lines 181-183, 255-257, 287-291). -/

/-- `np.unique(positions)`: the distinct values in ascending order. -/
def uniqueSorted (l : List Int) : List Int :=
  l.dedup.insertionSort (· ≤ ·)

/-- `_calculate_position_distribution` (lines 157-161): dict mapping each
observed position to `count / total`, keys in ascending order (`np.unique`
returns sorted values, and Python dicts preserve insertion order). -/
def calcPositionDistribution (positions : List Int) : List (Int × ℚ) :=
  (uniqueSorted positions).map
    (fun p => (p, (positions.count p : ℚ) / (positions.length : ℚ)))

/-- Python `dict.get(p, 0)` on the association list. -/
def dictGet (dist : List (Int × ℚ)) (p : Int) : ℚ :=
  (dist.lookup p).getD 0

/-- Semantics of Python `max(iterable, key=...)` starting from a current
best `b`: scan the rest, replacing the best only on a strictly greater
value, so the first maximal element wins. -/
def pickMax {β : Type} [LinearOrder β] (b : Int × β) : List (Int × β) → Int × β
  | [] => b
  | y :: ys => pickMax (if y.2 > b.2 then y else b) ys

/-- `_get_most_likely_position` (lines 163-165):
`max(distribution.items(), key=lambda x: x[1])[0]`.
`max` of an empty sequence raises `ValueError`, hence `Option`. -/
def getMostLikelyPosition : List (Int × ℚ) → Option Int
  | [] => none
  | x :: xs => some (pickMax x xs).1

/-- `np.bincount(positions)` as an (index, count) table over `0..max`;
all positions are nonnegative here (they are clamped into `[1, 20]`). -/
def bincount (positions : List Int) : List (Int × Nat) :=
  (List.range ((positions.foldl max 0).toNat + 1)).map
    (fun (i : Nat) => ((i : Int), positions.count (i : Int)))

/-- `int(np.bincount(final_positions).argmax())`
(`gpu_monte_carlo.py` lines 183 and 257); `argmax` returns the first
maximal index. `bincount` is never empty, so the `[]` case is unreachable. -/
def bincountArgmax (positions : List Int) : Int :=
  match bincount positions with
  | [] => 0
  | x :: xs => (pickMax x xs).1

/-- `_calculate_confidence` (lines 167-180). The final line is
`min(95, max(60, confidence))` where
`confidence = (predicted_prob * 70 + nearby_prob * 30) * 100`. -/
def calcConfidence (distribution : List (Int × ℚ)) (predicted_pos : Int) : ℚ :=
  let predicted_prob := dictGet distribution predicted_pos
  let nearby_prob :=
    dictGet distribution (predicted_pos - 1) + dictGet distribution predicted_pos +
      dictGet distribution (predicted_pos + 1)
  let confidence := (predicted_prob * 70 + nearby_prob * 30) * 100
  min 95 (max 60 confidence)

/-! ### Action selectors. -/

/-- `ParallelMonteCarloEngine._determine_action` (lines 182-210).
The `distribution` argument is passed by the source but never read. -/
def determineAction (driver_state : DriverState) (predicted_position : Int)
    (distribution : List (Int × ℚ)) : String × ℚ :=
  let position_change := driver_state.position - predicted_position
  let tire_critical := driver_state.tire_age > 20
  if tire_critical then ("PIT_NOW", 90)
  else if position_change > 1 then ("PUSH_MODE", 85)
  else if position_change < -1 then
    if driver_state.pit_stops_made < 1 then ("PIT_SOON", 80)
    else ("FUEL_SAVE", 75)
  else ("MAINTAIN_PACE", 82)

/-- `GPUMonteCarloEngine._determine_action` (`gpu_monte_carlo.py`
lines 293-310), used by both the accelerator and the fallback paths.
It has no `pit_stops_made` branch and never returns `FUEL_SAVE`. -/
def gpuDetermineAction (driver_state : DriverState) (predicted_position : Int)
    (distribution : List (Int × ℚ)) : String × ℚ :=
  let position_change := driver_state.position - predicted_position
  let tire_age := driver_state.tire_age
  if tire_age > 20 then ("PIT_NOW", 90)
  else if position_change > 1 then ("PUSH_MODE", 85)
  else if position_change < -1 then ("PIT_SOON", 80)
  else ("MAINTAIN_PACE", 82)

/-! ### CPU parallel dispatcher
(`ParallelMonteCarloEngine.predict_race_outcome`, lines 78-155). -/

/-- `PredictionResult` (lines 47-58). `lap_time_std` (`np.std`, an
irrational square root) and the wall-clock `computation_time_ms` are not
modelled; no claim refers to them. -/
structure PredictionResult where
  predicted_position : Int
  confidence : ℚ
  position_distribution : List (Int × ℚ)
  expected_lap_time : ℚ
  recommended_action : String
  action_confidence : ℚ
  simulations_run : Int
deriving Repr, DecidableEq

/-- One entry of `sim_chunks` (lines 100-109): worker index, chunk size,
and the worker seed `random_seed + core_id`. -/
structure SimChunk where
  core_id : Int
  chunk_size : Int
  seed : Int
deriving Repr, DecidableEq

/-- Lines 95-109: `sims_per_core = n_simulations // n_cores` and
`remaining_sims = n_simulations % n_cores` (Python floor division and
floor modulus, i.e. `Int.fdiv` / `Int.fmod`); worker `i` gets one extra
trial iff `i < remaining_sims`, and is seeded with `random_seed + i`. -/
def simChunks (cfg : SimulationConfig) : List SimChunk :=
  let sims_per_core := Int.fdiv cfg.n_simulations cfg.n_cores
  let remaining_sims := Int.fmod cfg.n_simulations cfg.n_cores
  (List.range cfg.n_cores.toNat).map (fun (i : Nat) =>
    { core_id := (i : Int)
      chunk_size := sims_per_core + (if (i : Int) < remaining_sims then 1 else 0)
      seed := cfg.random_seed + (i : Int) })

/-- `_run_simulation_chunk` (lines 213-270): runs `n_sims` trials off the
worker's seeded stream and returns `(positions, lap_times)`.
`for _ in range(n_sims)` iterates `max 0 n_sims` times. -/
def runChunk (st : DriverState) (stream : Nat → TrialRand) (n_sims : Int) :
    List Int × List ℚ :=
  let trials := (List.range n_sims.toNat).map (fun k => parallelTrial st (stream k))
  (trials.map Prod.snd, trials.map Prod.fst)

/-- `sims_per_core = n_simulations // n_cores` raises this when
`n_cores = 0` (line 96), before the pool is constructed. -/
def zeroDivError : String := "ZeroDivisionError: integer division or modulo by zero"

/-- `Pool(processes=p)` raises this for `p < 1` (line 114); with the
division at line 96 raising first for `p = 0`, it is reached only for
negative `p`. -/
def poolError : String := "ValueError: Number of processes must be at least 1"

/-- `max(())` inside `_get_most_likely_position` raises this (line 165). -/
def emptyMaxError : String := "ValueError: max() arg is an empty sequence"

/-- `__init__` (lines 67-72): `n_cores == -1` is replaced by `cpu_count()`;
no other validation is performed. -/
def effectiveConfig (cfg : SimulationConfig) (cpuCount : Int) : SimulationConfig :=
  if cfg.n_cores = -1 then { cfg with n_cores := cpuCount } else cfg

/-- `chunk_results = pool.map(_run_simulation_chunk, sim_chunks)`
(line 115): the per-worker `(positions, lap_times)` pairs. -/
def chunkResults (g : RandFamily) (cfg : SimulationConfig) (st : DriverState) :
    List (List Int × List ℚ) :=
  (simChunks cfg).map (fun ch => runChunk st (g ch.seed) ch.chunk_size)

/-- `all_positions` (lines 118-123): worker results merged by concatenation. -/
def allPositions (g : RandFamily) (cfg : SimulationConfig) (st : DriverState) :
    List Int :=
  ((chunkResults g cfg st).map Prod.fst).flatten

/-- `all_lap_times` (lines 119-123). -/
def allLapTimes (g : RandFamily) (cfg : SimulationConfig) (st : DriverState) :
    List ℚ :=
  ((chunkResults g cfg st).map Prod.snd).flatten

/-- `predict_race_outcome` (lines 78-155) over an explicit random-stream
family `g`: build the chunks, fan out `_run_simulation_chunk`, concatenate,
aggregate, and select the action. Python exceptions surface as
`Except.error`, in the order the source raises them: `n_cores = 0` dies in
the floor division at line 96 (ZeroDivisionError), a negative `n_cores`
survives the chunk computation (`range` of a negative count is empty) and
dies in `Pool(processes=...)` at line 114 (ValueError); the source performs
no config validation of its own. -/
def predictOutcome (g : RandFamily) (cfg : SimulationConfig) (st : DriverState) :
    Except String PredictionResult :=
  if cfg.n_cores = 0 then Except.error zeroDivError
  else if cfg.n_cores < 1 then Except.error poolError
  else
    let distribution := calcPositionDistribution (allPositions g cfg st)
    match getMostLikelyPosition distribution with
    | none => Except.error emptyMaxError
    | some predicted_position =>
      let confidence := calcConfidence distribution predicted_position
      let act := determineAction st predicted_position distribution
      Except.ok
        { predicted_position := predicted_position
          confidence := confidence
          position_distribution := distribution
          expected_lap_time := (allLapTimes g cfg st).sum /
            ((allLapTimes g cfg st).length : ℚ)
          recommended_action := act.1
          action_confidence := act.2
          simulations_run := ((allPositions g cfg st).length : Int) }

/-- Whether a call returned a result object. -/
def isOkResult : Except String PredictionResult → Bool
  | Except.ok _ => true
  | Except.error _ => false

/-! ### Helper lemmas about `dictGet`. -/

theorem dictGet_nil (p : Int) : dictGet [] p = 0 := rfl

theorem dictGet_cons (k : Int) (v : ℚ) (rest : List (Int × ℚ)) (p : Int) :
    dictGet ((k, v) :: rest) p = if k = p then v else dictGet rest p := by
  rcases eq_or_ne k p with h | h
  · subst h
    simp [dictGet, List.lookup]
  · rw [if_neg h]
    have hb : (p == k) = false := beq_eq_false_iff_ne.2 (Ne.symm h)
    simp [dictGet, List.lookup, hb]

theorem dictGet_nonneg (dist : List (Int × ℚ)) (p : Int)
    (h : ∀ pr ∈ dist, 0 ≤ pr.2) : 0 ≤ dictGet dist p := by
  induction dist with
  | nil => simp [dictGet_nil]
  | cons hd tl ih =>
    obtain ⟨k, v⟩ := hd
    rw [dictGet_cons]
    split
    · exact h (k, v) (List.mem_cons_self _ _)
    · exact ih (fun pr hpr => h pr (List.mem_cons_of_mem _ hpr))

theorem dictGet_le_sum (dist : List (Int × ℚ)) (p : Int)
    (h : ∀ pr ∈ dist, 0 ≤ pr.2) :
    dictGet dist p ≤ (dist.map Prod.snd).sum := by
  induction dist with
  | nil => simp [dictGet_nil]
  | cons hd tl ih =>
    obtain ⟨k, v⟩ := hd
    have hv : 0 ≤ v := h (k, v) (List.mem_cons_self _ _)
    have htl : ∀ pr ∈ tl, 0 ≤ pr.2 := fun pr hpr => h pr (List.mem_cons_of_mem _ hpr)
    have hsum : 0 ≤ (tl.map Prod.snd).sum :=
      List.sum_nonneg (by
        intro q hq
        obtain ⟨pr, hpr, rfl⟩ := List.mem_map.1 hq
        exact htl pr hpr)
    rw [dictGet_cons]
    simp only [List.map_cons, List.sum_cons]
    split
    · linarith
    · linarith [ih htl]

theorem dictGet_pair_le_sum (dist : List (Int × ℚ)) (a b : Int) (hab : a ≠ b)
    (h : ∀ pr ∈ dist, 0 ≤ pr.2) :
    dictGet dist a + dictGet dist b ≤ (dist.map Prod.snd).sum := by
  induction dist with
  | nil => simp [dictGet_nil]
  | cons hd tl ih =>
    obtain ⟨k, v⟩ := hd
    have hv : 0 ≤ v := h (k, v) (List.mem_cons_self _ _)
    have htl : ∀ pr ∈ tl, 0 ≤ pr.2 := fun pr hpr => h pr (List.mem_cons_of_mem _ hpr)
    rw [dictGet_cons, dictGet_cons]
    simp only [List.map_cons, List.sum_cons]
    by_cases hka : k = a
    · subst hka
      rw [if_pos rfl, if_neg hab]
      linarith [dictGet_le_sum tl b htl]
    · rw [if_neg hka]
      by_cases hkb : k = b
      · subst hkb
        rw [if_pos rfl]
        linarith [dictGet_le_sum tl a htl]
      · rw [if_neg hkb]
        linarith [ih htl]

theorem dictGet_triple_le_sum (dist : List (Int × ℚ)) (a b c : Int)
    (hab : a ≠ b) (hac : a ≠ c) (hbc : b ≠ c)
    (h : ∀ pr ∈ dist, 0 ≤ pr.2) :
    dictGet dist a + dictGet dist b + dictGet dist c ≤ (dist.map Prod.snd).sum := by
  induction dist with
  | nil => simp [dictGet_nil]
  | cons hd tl ih =>
    obtain ⟨k, v⟩ := hd
    have hv : 0 ≤ v := h (k, v) (List.mem_cons_self _ _)
    have htl : ∀ pr ∈ tl, 0 ≤ pr.2 := fun pr hpr => h pr (List.mem_cons_of_mem _ hpr)
    rw [dictGet_cons, dictGet_cons, dictGet_cons]
    simp only [List.map_cons, List.sum_cons]
    by_cases hka : k = a
    · subst hka
      rw [if_pos rfl, if_neg hab, if_neg hac]
      linarith [dictGet_pair_le_sum tl b c hbc htl]
    · rw [if_neg hka]
      by_cases hkb : k = b
      · subst hkb
        rw [if_pos rfl, if_neg hbc]
        linarith [dictGet_pair_le_sum tl a c hac htl]
      · rw [if_neg hkb]
        by_cases hkc : k = c
        · subst hkc
          rw [if_pos rfl]
          linarith [dictGet_pair_le_sum tl a b hab htl]
        · rw [if_neg hkc]
          linarith [ih htl]

/-! ### C7: the tire-age override. -/

/-- C7: on both backends, for every driver state with `tire_age > 20`, the
action selector returns `PIT_NOW` with confidence exactly 90, irrespective
of predicted position, position change, pit stops made, and all other
state fields. -/
theorem tire_critical_forces_pit_now (st : DriverState) (pp : Int)
    (d : List (Int × ℚ)) (h : st.tire_age > 20) :
    determineAction st pp d = ("PIT_NOW", 90) ∧
    gpuDetermineAction st pp d = ("PIT_NOW", 90) := by
  constructor <;> simp [determineAction, gpuDetermineAction, h]

theorem tire_critical_forces_pit_now_witness :
    (25 : Int) > 20 ∧
    determineAction ⟨44, 30, 3, 25, "SOFT", 60, [], 0⟩ 15 [] = ("PIT_NOW", 90) ∧
    gpuDetermineAction ⟨44, 30, 3, 25, "SOFT", 60, [], 0⟩ 15 [] = ("PIT_NOW", 90) :=
  ⟨by norm_num,
   (tire_critical_forces_pit_now ⟨44, 30, 3, 25, "SOFT", 60, [], 0⟩ 15 [] (by norm_num)).1,
   (tire_critical_forces_pit_now ⟨44, 30, 3, 25, "SOFT", 60, [], 0⟩ 15 [] (by norm_num)).2⟩

/-! ### C4: the FUEL_SAVE rule. -/

/-- C4 counterexample: with tire_age = 10 ≤ 20, pit_stops_made = 1 ≥ 1 and
position_change = 3 − 5 = −2 < −1, the accelerator backends' selector
returns ("PIT_SOON", 80), not ("FUEL_SAVE", 75): the claim fails on the
accelerator and fallback backends (both use
`GPUMonteCarloEngine._determine_action`, which never returns FUEL_SAVE). -/
theorem gpu_fuel_save_counterexample :
    gpuDetermineAction ⟨1, 10, 3, 10, "MEDIUM", 60, [], 1⟩ 5 [] = ("PIT_SOON", 80) ∧
    gpuDetermineAction ⟨1, 10, 3, 10, "MEDIUM", 60, [], 1⟩ 5 [] ≠ ("FUEL_SAVE", 75) := by
  constructor <;> norm_num [gpuDetermineAction]

/-- C4 (amended): when tire_age ≤ 20 and position_change < −1, the
CPU-parallel selector returns FUEL_SAVE with confidence 75 provided
pit_stops_made ≥ 1; the accelerator and fallback backends do not implement
this rule and return PIT_SOON with confidence 80 regardless of the pit-stop
count. -/
theorem fuel_save_rule (st : DriverState) (pp : Int) (d : List (Int × ℚ))
    (hta : st.tire_age ≤ 20) (hpc : st.position - pp < -1) :
    (1 ≤ st.pit_stops_made → determineAction st pp d = ("FUEL_SAVE", 75)) ∧
    gpuDetermineAction st pp d = ("PIT_SOON", 80) := by
  have h1 : ¬ (st.tire_age > 20) := by omega
  have h2 : ¬ (st.position - pp > 1) := by omega
  constructor
  · intro hps
    have h3 : ¬ (st.pit_stops_made < 1) := by omega
    simp [determineAction, h1, h2, hpc, h3]
  · simp [gpuDetermineAction, h1, h2, hpc]

theorem fuel_save_rule_witness :
    ((10 : Int) ≤ 20 ∧ (3 : Int) - 5 < -1 ∧ (1 : Int) ≤ 1) ∧
    determineAction ⟨1, 10, 3, 10, "MEDIUM", 60, [], 1⟩ 5 [] = ("FUEL_SAVE", 75) ∧
    gpuDetermineAction ⟨1, 10, 3, 10, "MEDIUM", 60, [], 1⟩ 5 [] = ("PIT_SOON", 80) :=
  ⟨⟨by norm_num, by norm_num, le_refl 1⟩,
   (fuel_save_rule ⟨1, 10, 3, 10, "MEDIUM", 60, [], 1⟩ 5 [] (by norm_num) (by norm_num)).1
     (le_refl 1),
   (fuel_save_rule ⟨1, 10, 3, 10, "MEDIUM", 60, [], 1⟩ 5 [] (by norm_num) (by norm_num)).2⟩

/-! ### C3: the confidence score. -/

/-- C3 counterexample: for the distribution P(1) = P(2) = 1/2 with predicted
position 1, the spec formula clamp(60, 95, 70·P(1) + 30·(P(0)+P(1)+P(2)))
gives 65, but the code multiplies the score by a further factor 100 before
clamping (`(predicted_prob * 70 + nearby_prob * 30) * 100`), giving 95; the
unclamped code score is 6500, outside [0, 100]. -/
theorem confidence_counterexample :
    calcConfidence [(1, 1/2), (2, 1/2)] 1 = 95 ∧
    min 95 (max 60 (70 * dictGet [(1, 1/2), (2, 1/2)] 1 +
      30 * (dictGet [(1, 1/2), (2, 1/2)] 0 + dictGet [(1, 1/2), (2, 1/2)] 1 +
        dictGet [(1, 1/2), (2, 1/2)] 2))) = 65 ∧
    calcConfidence [(1, 1/2), (2, 1/2)] 1 ≠
      min 95 (max 60 (70 * dictGet [(1, 1/2), (2, 1/2)] 1 +
        30 * (dictGet [(1, 1/2), (2, 1/2)] 0 + dictGet [(1, 1/2), (2, 1/2)] 1 +
          dictGet [(1, 1/2), (2, 1/2)] 2))) ∧
    ¬ ((dictGet [(1, 1/2), (2, 1/2)] 1 * 70 +
        (dictGet [(1, 1/2), (2, 1/2)] 0 + dictGet [(1, 1/2), (2, 1/2)] 1 +
          dictGet [(1, 1/2), (2, 1/2)] 2) * 30) * 100 ≤ 100) := by
  have h0 : dictGet [((1 : Int), (1 : ℚ)/2), (2, 1/2)] 0 = 0 := by
    norm_num [dictGet_cons, dictGet_nil]
  have h1 : dictGet [((1 : Int), (1 : ℚ)/2), (2, 1/2)] 1 = 1/2 := by
    norm_num [dictGet_cons, dictGet_nil]
  have h2 : dictGet [((1 : Int), (1 : ℚ)/2), (2, 1/2)] 2 = 1/2 := by
    norm_num [dictGet_cons, dictGet_nil]
  refine ⟨?_, ?_, ?_, ?_⟩
  · simp only [calcConfidence]
    norm_num [h0, h1, h2, min_def, max_def]
  · norm_num [h0, h1, h2, min_def, max_def]
  · simp only [calcConfidence]
    norm_num [h0, h1, h2, min_def, max_def]
  · norm_num [h0, h1, h2]

/-- C3 (amended): for every position distribution with nonnegative
probabilities summing to at most 1, the aggregator's confidence equals
clamp(60, 95, (70·P(pp) + 30·(P(pp−1)+P(pp)+P(pp+1))) · 100) — the source
multiplies the percentage-scaled score by a further factor 100 — the
unclamped score lies in [0, 10000] (not [0, 100]), and the clamped result
lies in [60, 95]. -/
theorem confidence_formula (dist : List (Int × ℚ)) (pp : Int)
    (hpos : ∀ pr ∈ dist, 0 ≤ pr.2)
    (hsum : (dist.map Prod.snd).sum ≤ 1) :
    calcConfidence dist pp =
      min 95 (max 60 ((dictGet dist pp * 70 +
        (dictGet dist (pp - 1) + dictGet dist pp + dictGet dist (pp + 1)) * 30) * 100)) ∧
    0 ≤ (dictGet dist pp * 70 +
      (dictGet dist (pp - 1) + dictGet dist pp + dictGet dist (pp + 1)) * 30) * 100 ∧
    (dictGet dist pp * 70 +
      (dictGet dist (pp - 1) + dictGet dist pp + dictGet dist (pp + 1)) * 30) * 100 ≤ 10000 ∧
    60 ≤ calcConfidence dist pp ∧ calcConfidence dist pp ≤ 95 := by
  have hP0 : 0 ≤ dictGet dist pp := dictGet_nonneg dist pp hpos
  have hm0 : 0 ≤ dictGet dist (pp - 1) := dictGet_nonneg dist (pp - 1) hpos
  have hp0 : 0 ≤ dictGet dist (pp + 1) := dictGet_nonneg dist (pp + 1) hpos
  have hP1 : dictGet dist pp ≤ 1 := le_trans (dictGet_le_sum dist pp hpos) hsum
  have hS1 : dictGet dist (pp - 1) + dictGet dist pp + dictGet dist (pp + 1) ≤ 1 := by
    have := dictGet_triple_le_sum dist (pp - 1) pp (pp + 1)
      (by omega) (by omega) (by omega) hpos
    linarith
  refine ⟨rfl, by positivity, by nlinarith, ?_, ?_⟩
  · exact le_min (by norm_num) (le_max_left 60 _)
  · exact min_le_left 95 _

theorem confidence_formula_witness :
    (∀ pr ∈ [((3 : Int), (1 : ℚ)/2), (4, 1/4)], 0 ≤ pr.2) ∧
    (([((3 : Int), (1 : ℚ)/2), (4, 1/4)].map Prod.snd).sum ≤ 1) ∧
    (calcConfidence [((3 : Int), (1 : ℚ)/2), (4, 1/4)] 3 =
      min 95 (max 60 ((dictGet [((3 : Int), (1 : ℚ)/2), (4, 1/4)] 3 * 70 +
        (dictGet [((3 : Int), (1 : ℚ)/2), (4, 1/4)] 2 +
         dictGet [((3 : Int), (1 : ℚ)/2), (4, 1/4)] 3 +
         dictGet [((3 : Int), (1 : ℚ)/2), (4, 1/4)] 4) * 30) * 100)) ∧
     0 ≤ (dictGet [((3 : Int), (1 : ℚ)/2), (4, 1/4)] 3 * 70 +
        (dictGet [((3 : Int), (1 : ℚ)/2), (4, 1/4)] 2 +
         dictGet [((3 : Int), (1 : ℚ)/2), (4, 1/4)] 3 +
         dictGet [((3 : Int), (1 : ℚ)/2), (4, 1/4)] 4) * 30) * 100 ∧
     (dictGet [((3 : Int), (1 : ℚ)/2), (4, 1/4)] 3 * 70 +
        (dictGet [((3 : Int), (1 : ℚ)/2), (4, 1/4)] 2 +
         dictGet [((3 : Int), (1 : ℚ)/2), (4, 1/4)] 3 +
         dictGet [((3 : Int), (1 : ℚ)/2), (4, 1/4)] 4) * 30) * 100 ≤ 10000 ∧
     60 ≤ calcConfidence [((3 : Int), (1 : ℚ)/2), (4, 1/4)] 3 ∧
     calcConfidence [((3 : Int), (1 : ℚ)/2), (4, 1/4)] 3 ≤ 95) := by
  have hpos : ∀ pr ∈ [((3 : Int), (1 : ℚ)/2), (4, 1/4)], 0 ≤ pr.2 := by
    intro pr hpr
    fin_cases hpr <;> norm_num
  have hsum : ([((3 : Int), (1 : ℚ)/2), (4, 1/4)].map Prod.snd).sum ≤ 1 := by
    norm_num
  exact ⟨hpos, hsum, confidence_formula [((3 : Int), (1 : ℚ)/2), (4, 1/4)] 3 hpos hsum⟩

/-! ### C5: determinism of the CPU-parallel backend. -/

/-- C5: the CPU-parallel backend is a pure function of the driver state, the
seeded stream family, and the config fields `n_simulations`, `n_cores` and
`random_seed` (worker `i` reads the stream seeded `random_seed + i`): two
configs agreeing on those three fields produce identical results — in
particular identical `position_distribution` maps — on the same inputs,
whatever the remaining field `confidence_level` is. Repeated runs with a
fully identical config are the special case `cfg1 = cfg2`. -/
theorem cpu_backend_deterministic (g : RandFamily) (st : DriverState)
    (cfg1 cfg2 : SimulationConfig)
    (hn : cfg1.n_simulations = cfg2.n_simulations)
    (hc : cfg1.n_cores = cfg2.n_cores)
    (hs : cfg1.random_seed = cfg2.random_seed) :
    predictOutcome g cfg1 st = predictOutcome g cfg2 st ∧
    (predictOutcome g cfg1 st).map PredictionResult.position_distribution =
      (predictOutcome g cfg2 st).map PredictionResult.position_distribution := by
  obtain ⟨n1, c1, l1, s1⟩ := cfg1
  obtain ⟨n2, c2, l2, s2⟩ := cfg2
  dsimp only at hn hc hs
  subst hn; subst hc; subst hs
  exact ⟨rfl, rfl⟩

theorem cpu_backend_deterministic_witness :
    predictOutcome (fun _ _ => ⟨0, 0, 0, 0⟩) ⟨4, 2, 9/10, 42⟩
        ⟨1, 10, 5, 12, "SOFT", 60, [90], 0⟩ =
      predictOutcome (fun _ _ => ⟨0, 0, 0, 0⟩) ⟨4, 2, 1/2, 42⟩
        ⟨1, 10, 5, 12, "SOFT", 60, [90], 0⟩ :=
  (cpu_backend_deterministic (fun _ _ => ⟨0, 0, 0, 0⟩)
    ⟨1, 10, 5, 12, "SOFT", 60, [90], 0⟩ ⟨4, 2, 9/10, 42⟩ ⟨4, 2, 1/2, 42⟩
    rfl rfl rfl).1

/-! ### C10: unknown tire compounds. -/

/-- C10: a `tire_compound` outside {SOFT, MEDIUM, HARD} never fails: every
backend's degradation lookup falls back to the MEDIUM rate 0.05, each
backend's per-trial outputs under the same random draws are identical to
those for `tire_compound = "MEDIUM"`, and the whole CPU-parallel prediction
coincides with the MEDIUM one under the same stream family. -/
theorem unknown_compound_behaves_like_medium (c : String)
    (h1 : c ≠ "SOFT") (h2 : c ≠ "MEDIUM") (h3 : c ≠ "HARD")
    (st : DriverState) (r : TrialRand) (g : RandFamily) (cfg : SimulationConfig) :
    tireDegRatePar c = tireDegRatePar "MEDIUM" ∧
    tireDegRateGpu c = tireDegRateGpu "MEDIUM" ∧
    tireDegRateFb c = tireDegRateFb "MEDIUM" ∧
    parallelTrial { st with tire_compound := c } r =
      parallelTrial { st with tire_compound := "MEDIUM" } r ∧
    gpuTrial { st with tire_compound := c } r =
      gpuTrial { st with tire_compound := "MEDIUM" } r ∧
    fallbackTrial { st with tire_compound := c } r =
      fallbackTrial { st with tire_compound := "MEDIUM" } r ∧
    predictOutcome g cfg { st with tire_compound := c } =
      predictOutcome g cfg { st with tire_compound := "MEDIUM" } := by
  have hdp : tireDegRatePar c = tireDegRatePar "MEDIUM" := by
    simp [tireDegRatePar, h1, h2, h3]
  have hdg : tireDegRateGpu c = tireDegRateGpu "MEDIUM" := by
    simp [tireDegRateGpu, h1, h2, h3]
  have hdf : tireDegRateFb c = tireDegRateFb "MEDIUM" := by
    simp [tireDegRateFb, h1, h2, h3]
  have htrial : parallelTrial { st with tire_compound := c } =
      parallelTrial { st with tire_compound := "MEDIUM" } := by
    funext r'
    simp [parallelTrial, avgLapTime, hdp]
  refine ⟨hdp, hdg, hdf, congrFun htrial r, ?_, ?_, ?_⟩
  · simp [gpuTrial, avgLapTime, hdg]
  · simp [fallbackTrial, avgLapTime, hdf]
  · simp only [predictOutcome, allPositions, allLapTimes, chunkResults, runChunk,
      htrial, determineAction]

theorem unknown_compound_behaves_like_medium_witness :
    ("INTERMEDIATE" ≠ "SOFT" ∧ "INTERMEDIATE" ≠ "MEDIUM" ∧ "INTERMEDIATE" ≠ "HARD") ∧
    tireDegRatePar "INTERMEDIATE" = tireDegRatePar "MEDIUM" ∧
    parallelTrial ⟨1, 10, 5, 12, "INTERMEDIATE", 60, [90], 0⟩ ⟨0, 0, 1, 0⟩ =
      parallelTrial ⟨1, 10, 5, 12, "MEDIUM", 60, [90], 0⟩ ⟨0, 0, 1, 0⟩ ∧
    predictOutcome (fun _ _ => ⟨0, 0, 1, 0⟩) ⟨4, 2, 9/10, 42⟩
        ⟨1, 10, 5, 12, "INTERMEDIATE", 60, [90], 0⟩ =
      predictOutcome (fun _ _ => ⟨0, 0, 1, 0⟩) ⟨4, 2, 9/10, 42⟩
        ⟨1, 10, 5, 12, "MEDIUM", 60, [90], 0⟩ := by
  have h := unknown_compound_behaves_like_medium "INTERMEDIATE"
    (by decide) (by decide) (by decide)
    ⟨1, 10, 5, 12, "INTERMEDIATE", 60, [90], 0⟩ ⟨0, 0, 1, 0⟩
    (fun _ _ => ⟨0, 0, 1, 0⟩) ⟨4, 2, 9/10, 42⟩
  exact ⟨⟨by decide, by decide, by decide⟩, h.1, h.2.2.2.1, h.2.2.2.2.2.2⟩

/-! ### C1: cross-backend per-trial model comparison. -/

/-- C1 counterexample: the fast-tier position-change distribution is not
identical across backends: the CPU-parallel backend assigns P(−2) = 0.3
(`p=[0.3, 0.5, 0.2]`) while the accelerator and fallback backends assign
P(−2) = 1/3 (uniform `torch.randint` / unweighted `np.random.choice`); and
one identical fast-tier draw u = 0.31 produces different trial outputs
(final position 9 on the parallel backend, 8 on the fallback backend). -/
theorem per_trial_model_not_identical :
    pmfProb parFastTier (-2) = 3/10 ∧
    pmfProb gpuFastTier (-2) = 1/3 ∧
    pmfProb fbFastTier (-2) = 1/3 ∧
    pmfProb parFastTier (-2) ≠ pmfProb fbFastTier (-2) ∧
    parallelTrial ⟨1, 10, 10, 0, "MEDIUM", 0, [], 0⟩ ⟨-1, 31/100, 1/2, 0⟩ ≠
      fallbackTrial ⟨1, 10, 10, 0, "MEDIUM", 0, [], 0⟩ ⟨-1, 31/100, 1/2, 0⟩ := by
  refine ⟨?_, ?_, ?_, ?_, ?_⟩
  · norm_num [pmfProb, parFastTier]
  · norm_num [pmfProb, gpuFastTier]
  · norm_num [pmfProb, fbFastTier]
  · norm_num [pmfProb, parFastTier, fbFastTier]
  · norm_num [parallelTrial, fallbackTrial, avgLapTime, tireDegRatePar, tireDegRateFb,
      sampleChoice, parFastThreshold, fbFastThreshold, parSlowThreshold, fbSlowThreshold,
      parIncidentProb, fbIncidentProb, parFastTier, fbFastTier, Prod.ext_iff]

/-- C1 (amended): across the CPU-parallel, accelerator, and fallback
backends the ±0.5s thresholds, the 5% incident probability, the
degradation-rate table, and the supports of the three position-change tiers
are identical, and each backend's tables have total mass 1; but the
per-trial model is not identical: the CPU-parallel backend draws the
weighted tiers ({0.3,0.5,0.2} fast, {0.2,0.5,0.3} slow, {0.2,0.6,0.2}
neutral, incident {0.1,0.2,0.3,0.2,0.2} on {-2,-1,1,2,3}) while both
accelerator backends draw uniformly over the tier supports, and the
accelerator incident-delta support is {-2,-1,0,1,2,3} (including 0). -/
theorem backend_model_comparison :
    (∀ c, tireDegRatePar c = tireDegRateGpu c ∧ tireDegRateGpu c = tireDegRateFb c) ∧
    (parFastThreshold = gpuFastThreshold ∧ gpuFastThreshold = fbFastThreshold) ∧
    (parSlowThreshold = gpuSlowThreshold ∧ gpuSlowThreshold = fbSlowThreshold) ∧
    (parIncidentProb = gpuIncidentProb ∧ gpuIncidentProb = fbIncidentProb) ∧
    (parFastTier.map Prod.fst = gpuFastTier.map Prod.fst ∧
      gpuFastTier.map Prod.fst = fbFastTier.map Prod.fst) ∧
    (parSlowTier.map Prod.fst = gpuSlowTier.map Prod.fst ∧
      gpuSlowTier.map Prod.fst = fbSlowTier.map Prod.fst) ∧
    (parNeutralTier.map Prod.fst = gpuNeutralTier.map Prod.fst ∧
      gpuNeutralTier.map Prod.fst = fbNeutralTier.map Prod.fst) ∧
    (pmfTotal parFastTier = 1 ∧ pmfTotal parSlowTier = 1 ∧
      pmfTotal parNeutralTier = 1 ∧ pmfTotal parIncidentTable = 1 ∧
      pmfTotal gpuFastTier = 1 ∧ pmfTotal gpuIncidentTable = 1 ∧
      pmfTotal fbFastTier = 1 ∧ pmfTotal fbIncidentTable = 1) ∧
    (∀ pr ∈ gpuFastTier, pr.2 = 1/3) ∧
    (∀ pr ∈ fbFastTier, pr.2 = 1/3) ∧
    parFastTier ≠ gpuFastTier ∧ parFastTier ≠ fbFastTier ∧
    parSlowTier ≠ gpuSlowTier ∧ parNeutralTier ≠ gpuNeutralTier ∧
    parIncidentTable.map Prod.fst = fbIncidentTable.map Prod.fst ∧
    parIncidentTable ≠ fbIncidentTable ∧
    gpuIncidentTable.map Prod.fst ≠ parIncidentTable.map Prod.fst ∧
    (0 : Int) ∈ gpuIncidentTable.map Prod.fst ∧
    (0 : Int) ∉ parIncidentTable.map Prod.fst := by
  refine ⟨fun c => ⟨rfl, rfl⟩, ⟨rfl, rfl⟩, ⟨rfl, rfl⟩, ⟨rfl, rfl⟩,
    ⟨rfl, rfl⟩, ⟨rfl, rfl⟩, ⟨rfl, rfl⟩, ?_, ?_, ?_, ?_, ?_, ?_, ?_, rfl, ?_, ?_, ?_, ?_⟩
  · norm_num [pmfTotal, parFastTier, parSlowTier, parNeutralTier, parIncidentTable,
      gpuFastTier, gpuIncidentTable, fbFastTier, fbIncidentTable]
  · intro pr hpr
    fin_cases hpr <;> norm_num [gpuFastTier]
  · intro pr hpr
    fin_cases hpr <;> norm_num [fbFastTier]
  · norm_num [parFastTier, gpuFastTier]
  · norm_num [parFastTier, fbFastTier]
  · norm_num [parSlowTier, gpuSlowTier]
  · norm_num [parNeutralTier, gpuNeutralTier]
  · norm_num [parIncidentTable, fbIncidentTable]
  · norm_num [gpuIncidentTable, parIncidentTable]
  · norm_num [gpuIncidentTable]
  · norm_num [parIncidentTable]

/-! ### Lemmas about `pickMax` (the scan behind Python `max(..., key=...)`
and NumPy `argmax`). -/

theorem pickMax_mem {β : Type} [LinearOrder β] (b : Int × β) (ys : List (Int × β)) :
    pickMax b ys ∈ b :: ys := by
  induction ys generalizing b with
  | nil => simp [pickMax]
  | cons y ys ih =>
    have h := ih (if y.2 > b.2 then y else b)
    rw [pickMax]
    rcases List.mem_cons.1 h with h1 | h1
    · rw [h1]
      split <;> simp
    · exact List.mem_cons_of_mem _ (List.mem_cons_of_mem _ h1)

theorem pickMax_le {β : Type} [LinearOrder β] (b : Int × β) (ys : List (Int × β)) :
    ∀ z ∈ b :: ys, z.2 ≤ (pickMax b ys).2 := by
  induction ys generalizing b with
  | nil =>
    intro z hz
    rw [List.mem_singleton] at hz
    subst hz
    exact le_refl _
  | cons y ys ih =>
    intro z hz
    rw [pickMax]
    have hself : (if y.2 > b.2 then y else b).2 ≤
        (pickMax (if y.2 > b.2 then y else b) ys).2 :=
      ih _ _ (List.mem_cons_self _ _)
    rcases List.mem_cons.1 hz with rfl | hz'
    · refine le_trans ?_ hself
      split
      · next hgt => exact le_of_lt hgt
      · exact le_refl _
    · rcases List.mem_cons.1 hz' with rfl | hz''
      · refine le_trans ?_ hself
        split
        · exact le_refl _
        · next hgt => exact not_lt.1 hgt
      · exact ih _ _ (List.mem_cons_of_mem _ hz'')

theorem pickMax_eq_or_lt {β : Type} [LinearOrder β] (b : Int × β)
    (ys : List (Int × β)) :
    pickMax b ys = b ∨ b.2 < (pickMax b ys).2 := by
  induction ys generalizing b with
  | nil => exact Or.inl rfl
  | cons y ys ih =>
    rw [pickMax]
    by_cases h : y.2 > b.2
    · rw [if_pos h]
      rcases ih y with h1 | h1
      · rw [h1]
        exact Or.inr h
      · exact Or.inr (lt_trans h h1)
    · rw [if_neg h]
      exact ih b

/-- With strictly increasing keys, the scan returns the key-smallest
element among the value-maximizers (first maximal element wins). -/
theorem pickMax_first {β : Type} [LinearOrder β] (b : Int × β)
    (ys : List (Int × β))
    (hsort : (b :: ys).Pairwise (fun p q => p.1 < q.1)) :
    ∀ z ∈ b :: ys, (pickMax b ys).2 ≤ z.2 → (pickMax b ys).1 ≤ z.1 := by
  induction ys generalizing b with
  | nil =>
    intro z hz _
    rw [List.mem_singleton] at hz
    subst hz
    exact le_refl _
  | cons y ys ih =>
    intro z hz hle
    rw [pickMax] at hle ⊢
    by_cases h : y.2 > b.2
    · rw [if_pos h] at hle ⊢
      rcases List.mem_cons.1 hz with rfl | hz'
      · have h2 : y.2 ≤ (pickMax y ys).2 := pickMax_le y ys y (List.mem_cons_self _ _)
        exact absurd (lt_of_lt_of_le h (le_trans h2 hle)) (lt_irrefl _)
      · exact ih y hsort.of_cons z hz' hle
    · rw [if_neg h] at hle ⊢
      rcases List.mem_cons.1 hz with rfl | hz'
      · rcases pickMax_eq_or_lt z ys with he | hlt
        · rw [he]
        · exact absurd (lt_of_lt_of_le hlt hle) (lt_irrefl _)
      · rcases List.mem_cons.1 hz' with rfl | hz''
        · rcases pickMax_eq_or_lt b ys with he | hlt
          · rw [he]
            exact le_of_lt ((List.pairwise_cons.1 hsort).1 z (List.mem_cons_self _ _))
          · have hyb : z.2 ≤ b.2 := not_lt.1 h
            exact absurd (lt_of_lt_of_le hlt (le_trans hle hyb)) (lt_irrefl _)
        · have hsub : (b :: ys).Sublist (b :: y :: ys) :=
            List.Sublist.cons₂ b (List.sublist_cons_self y ys)
          exact ih b (hsort.sublist hsub) z (List.mem_cons_of_mem _ hz'') hle

theorem le_foldl_max (l : List Int) (a : Int) :
    (∀ q ∈ l, q ≤ l.foldl max a) ∧ a ≤ l.foldl max a := by
  induction l generalizing a with
  | nil => exact ⟨by simp, le_refl a⟩
  | cons x xs ih =>
    constructor
    · intro q hq
      rcases List.mem_cons.1 hq with rfl | h
      · exact le_trans (le_max_right a q) (ih (max a q)).2
      · exact (ih (max a x)).1 q h
    · exact le_trans (le_max_left a x) (ih (max a x)).2

/-! ### Structure of `calcPositionDistribution` and `bincount`. -/

theorem mem_uniqueSorted (l : List Int) (p : Int) : p ∈ uniqueSorted l ↔ p ∈ l := by
  simp [uniqueSorted, List.mem_insertionSort, List.mem_dedup]

theorem uniqueSorted_pairwise (l : List Int) : (uniqueSorted l).Pairwise (· < ·) :=
  ((List.sorted_insertionSort _ _).and
    ((List.perm_insertionSort _ _).nodup_iff.2 (List.nodup_dedup l))).imp
    (fun h => lt_of_le_of_ne h.1 h.2)

theorem uniqueSorted_eq_nil (l : List Int) : uniqueSorted l = [] ↔ l = [] := by
  constructor
  · intro h
    have hp := List.perm_insertionSort (· ≤ ·) l.dedup
    rw [uniqueSorted] at h
    rw [h] at hp
    exact (List.dedup_eq_nil l).1 hp.symm.eq_nil
  · intro h
    simp [uniqueSorted, h]

theorem calcDist_eq_nil (l : List Int) : calcPositionDistribution l = [] ↔ l = [] := by
  rw [calcPositionDistribution, List.map_eq_nil_iff]
  exact uniqueSorted_eq_nil l

theorem calcDist_pairwise (l : List Int) :
    (calcPositionDistribution l).Pairwise (fun a b => a.1 < b.1) := by
  rw [calcPositionDistribution, List.pairwise_map]
  exact uniqueSorted_pairwise l

theorem calcDist_shape (l : List Int) (pr : Int × ℚ)
    (h : pr ∈ calcPositionDistribution l) :
    pr.1 ∈ l ∧ pr.2 = (l.count pr.1 : ℚ) / (l.length : ℚ) := by
  obtain ⟨q, hq, rfl⟩ := List.mem_map.1 h
  exact ⟨(mem_uniqueSorted l q).1 hq, rfl⟩

theorem calcDist_mem (l : List Int) (p : Int) :
    (p, (l.count p : ℚ) / (l.length : ℚ)) ∈ calcPositionDistribution l ↔ p ∈ l := by
  constructor
  · intro h
    exact (calcDist_shape l _ h).1
  · intro h
    exact List.mem_map.2 ⟨p, (mem_uniqueSorted l p).2 h, rfl⟩

theorem bincount_shape (l : List Int) (pr : Int × Nat) (h : pr ∈ bincount l) :
    pr.2 = l.count pr.1 ∧ 0 ≤ pr.1 ∧ pr.1 ≤ l.foldl max 0 := by
  obtain ⟨i, hi, rfl⟩ := List.mem_map.1 h
  rw [List.mem_range] at hi
  have hm : 0 ≤ l.foldl max 0 := (le_foldl_max l 0).2
  refine ⟨rfl, Int.ofNat_nonneg i, ?_⟩
  omega

theorem bincount_pairwise (l : List Int) :
    (bincount l).Pairwise (fun a b => a.1 < b.1) := by
  rw [bincount, List.pairwise_map]
  exact (List.pairwise_lt_range _).imp (fun h => by simpa using h)

theorem mem_bincount_of_mem (l : List Int) (q : Int) (hq : q ∈ l) (hq0 : 0 ≤ q) :
    ((q, l.count q) : Int × Nat) ∈ bincount l := by
  have hqm : q ≤ l.foldl max 0 := (le_foldl_max l 0).1 q hq
  refine List.mem_map.2 ⟨q.toNat, ?_, ?_⟩
  · rw [List.mem_range]
    omega
  · rw [Int.toNat_of_nonneg hq0]

/-! ### C8: the predicted position is the first argmax. -/

/-- C8: for every non-empty sample of final positions (all ≥ 1, as the
simulation clamps them into [1, 20]), `_get_most_likely_position` applied
to the computed distribution returns an observed position of maximal
probability, and on ties the smallest such position; likewise the
accelerator backends' `np.bincount(...).argmax()` returns an observed
position of maximal count, smallest on ties. -/
theorem predicted_position_is_first_argmax (l : List Int) (hl : l ≠ [])
    (hge1 : ∀ p ∈ l, 1 ≤ p) :
    ∃ pp, getMostLikelyPosition (calcPositionDistribution l) = some pp ∧
      pp ∈ l ∧
      (∀ q ∈ l, (l.count q : ℚ) / (l.length : ℚ) ≤ (l.count pp : ℚ) / (l.length : ℚ)) ∧
      (∀ q ∈ l, (l.count q : ℚ) / (l.length : ℚ) = (l.count pp : ℚ) / (l.length : ℚ) →
        pp ≤ q) ∧
      bincountArgmax l ∈ l ∧
      (∀ q ∈ l, l.count q ≤ l.count (bincountArgmax l)) ∧
      (∀ q ∈ l, l.count q = l.count (bincountArgmax l) → bincountArgmax l ≤ q) := by
  obtain ⟨x, xs, hdist⟩ : ∃ x xs, calcPositionDistribution l = x :: xs := by
    rcases hd : calcPositionDistribution l with _ | ⟨x, xs⟩
    · exact absurd ((calcDist_eq_nil l).1 hd) hl
    · exact ⟨x, xs, rfl⟩
  have hr_mem : pickMax x xs ∈ calcPositionDistribution l := by
    rw [hdist]
    exact pickMax_mem x xs
  have hshape := calcDist_shape l (pickMax x xs) hr_mem
  have hmax : ∀ pr ∈ calcPositionDistribution l, pr.2 ≤ (pickMax x xs).2 := by
    intro pr hpr
    rw [hdist] at hpr
    exact pickMax_le x xs pr hpr
  have hfirst : ∀ pr ∈ calcPositionDistribution l,
      (pickMax x xs).2 ≤ pr.2 → (pickMax x xs).1 ≤ pr.1 := by
    intro pr hpr hle
    have hpw : (x :: xs).Pairwise (fun a b => a.1 < b.1) := by
      rw [← hdist]
      exact calcDist_pairwise l
    rw [hdist] at hpr
    exact pickMax_first x xs hpw pr hpr hle
  obtain ⟨y, ys, hbc⟩ : ∃ y ys, bincount l = y :: ys := by
    rcases hb : bincount l with _ | ⟨y, ys⟩
    · exfalso
      have hlen : (bincount l).length = (l.foldl max 0).toNat + 1 := by
        simp [bincount]
      rw [hb] at hlen
      simp at hlen
    · exact ⟨y, ys, rfl⟩
  have harg : bincountArgmax l = (pickMax y ys).1 := by
    unfold bincountArgmax
    rw [hbc]
  have hs_mem : pickMax y ys ∈ bincount l := by
    rw [hbc]
    exact pickMax_mem y ys
  have hsshape := bincount_shape l (pickMax y ys) hs_mem
  have hsmax : ∀ pr ∈ bincount l, pr.2 ≤ (pickMax y ys).2 := by
    intro pr hpr
    rw [hbc] at hpr
    exact pickMax_le y ys pr hpr
  have hsfirst : ∀ pr ∈ bincount l,
      (pickMax y ys).2 ≤ pr.2 → (pickMax y ys).1 ≤ pr.1 := by
    intro pr hpr hle
    have hpw : (y :: ys).Pairwise (fun a b => a.1 < b.1) := by
      rw [← hbc]
      exact bincount_pairwise l
    rw [hbc] at hpr
    exact pickMax_first y ys hpw pr hpr hle
  obtain ⟨q0, hq0⟩ := List.exists_mem_of_ne_nil l hl
  have hcount_pos : 0 < l.count (pickMax y ys).1 := by
    have h1 : (1 : Nat) ≤ l.count q0 := List.count_pos_iff.2 hq0
    have h2 := hsmax (q0, l.count q0) (mem_bincount_of_mem l q0 hq0
      (le_trans (by norm_num) (hge1 q0 hq0)))
    rw [hsshape.1] at h2
    omega
  refine ⟨(pickMax x xs).1, ?_, hshape.1, ?_, ?_, ?_, ?_, ?_⟩
  · rw [hdist]
    rfl
  · intro q hq
    have hmem := (calcDist_mem l q).2 hq
    have h1 := hmax _ hmem
    rw [hshape.2] at h1
    exact h1
  · intro q hq heq
    have hmem := (calcDist_mem l q).2 hq
    have h1 := hfirst _ hmem (by rw [hshape.2, ← heq])
    exact h1
  · rw [harg]
    exact List.count_pos_iff.1 hcount_pos
  · intro q hq
    rw [harg]
    have hmem := mem_bincount_of_mem l q hq (le_trans (by norm_num) (hge1 q hq))
    have h1 := hsmax _ hmem
    rw [hsshape.1] at h1
    exact h1
  · intro q hq heq
    rw [harg] at heq ⊢
    have hmem := mem_bincount_of_mem l q hq (le_trans (by norm_num) (hge1 q hq))
    exact hsfirst _ hmem (by rw [hsshape.1, heq])

theorem predicted_position_is_first_argmax_witness :
    (([3, 3, 5] : List Int) ≠ [] ∧ ∀ p ∈ ([3, 3, 5] : List Int), 1 ≤ p) ∧
    (∃ pp, getMostLikelyPosition (calcPositionDistribution [3, 3, 5]) = some pp ∧
      pp ∈ ([3, 3, 5] : List Int) ∧
      (∀ q ∈ ([3, 3, 5] : List Int),
        (([3, 3, 5] : List Int).count q : ℚ) / (([3, 3, 5] : List Int).length : ℚ) ≤
          (([3, 3, 5] : List Int).count pp : ℚ) / (([3, 3, 5] : List Int).length : ℚ)) ∧
      (∀ q ∈ ([3, 3, 5] : List Int),
        (([3, 3, 5] : List Int).count q : ℚ) / (([3, 3, 5] : List Int).length : ℚ) =
          (([3, 3, 5] : List Int).count pp : ℚ) / (([3, 3, 5] : List Int).length : ℚ) →
        pp ≤ q) ∧
      bincountArgmax [3, 3, 5] ∈ ([3, 3, 5] : List Int) ∧
      (∀ q ∈ ([3, 3, 5] : List Int),
        ([3, 3, 5] : List Int).count q ≤
          ([3, 3, 5] : List Int).count (bincountArgmax [3, 3, 5])) ∧
      (∀ q ∈ ([3, 3, 5] : List Int),
        ([3, 3, 5] : List Int).count q =
          ([3, 3, 5] : List Int).count (bincountArgmax [3, 3, 5]) →
        bincountArgmax [3, 3, 5] ≤ q)) :=
  ⟨⟨by decide, by decide⟩,
   predicted_position_is_first_argmax [3, 3, 5] (by decide) (by decide)⟩

/-! ### C9: the distribution is count/n and sums to exactly 1. -/

theorem sum_map_div_const {α : Type} (L : List α) (f : α → ℚ) (r : ℚ) :
    (L.map (fun x => f x / r)).sum = (L.map f).sum / r := by
  induction L with
  | nil => simp
  | cons x xs ih => simp [ih, add_div]

/-- C9: for every non-empty sample of n final positions, each entry of the
computed position distribution is count(final_position = p) / n for an
observed p, every observed p has such an entry, and the values of the
distribution sum to exactly 1 over ℚ (so also to 1 ± 1e-6 in floating
point). -/
theorem distribution_sums_to_one (l : List Int) (hl : l ≠ []) :
    (∀ pr ∈ calcPositionDistribution l,
      pr.1 ∈ l ∧ pr.2 = (l.count pr.1 : ℚ) / (l.length : ℚ)) ∧
    (∀ p ∈ l, (p, (l.count p : ℚ) / (l.length : ℚ)) ∈ calcPositionDistribution l) ∧
    ((calcPositionDistribution l).map Prod.snd).sum = 1 := by
  have hlen : (l.length : ℚ) ≠ 0 :=
    Nat.cast_ne_zero.2 (List.length_pos.2 hl).ne'
  refine ⟨fun pr hpr => calcDist_shape l pr hpr,
    fun p hp => (calcDist_mem l p).2 hp, ?_⟩
  have hperm : List.Perm (uniqueSorted l) l.dedup := List.perm_insertionSort _ _
  calc ((calcPositionDistribution l).map Prod.snd).sum
      = ((uniqueSorted l).map (fun p => (l.count p : ℚ) / (l.length : ℚ))).sum := by
        rw [calcPositionDistribution, List.map_map]
        rfl
    _ = (l.dedup.map (fun p => (l.count p : ℚ) / (l.length : ℚ))).sum :=
        (hperm.map _).sum_eq
    _ = (l.dedup.map (fun p => (l.count p : ℚ))).sum / (l.length : ℚ) :=
        sum_map_div_const _ _ _
    _ = ((l.dedup.map (fun p => l.count p)).map (fun n : ℕ => (n : ℚ))).sum /
          (l.length : ℚ) := by
        rw [List.map_map]
        rfl
    _ = (((l.dedup.map (fun p => l.count p)).sum : ℕ) : ℚ) / (l.length : ℚ) := by
        rw [Nat.cast_list_sum]
    _ = ((l.length : ℕ) : ℚ) / (l.length : ℚ) := by
        rw [List.sum_map_count_dedup_eq_length]
    _ = 1 := div_self hlen

theorem distribution_sums_to_one_witness :
    (([2, 2, 3] : List Int) ≠ []) ∧
    (∀ pr ∈ calcPositionDistribution [2, 2, 3],
      pr.1 ∈ ([2, 2, 3] : List Int) ∧
      pr.2 = (([2, 2, 3] : List Int).count pr.1 : ℚ) /
        (([2, 2, 3] : List Int).length : ℚ)) ∧
    (∀ p ∈ ([2, 2, 3] : List Int),
      (p, (([2, 2, 3] : List Int).count p : ℚ) / (([2, 2, 3] : List Int).length : ℚ)) ∈
        calcPositionDistribution [2, 2, 3]) ∧
    ((calcPositionDistribution [2, 2, 3]).map Prod.snd).sum = 1 :=
  ⟨by decide, distribution_sums_to_one [2, 2, 3] (by decide)⟩

/-! ### Arithmetic of the chunk split. -/

theorem range_sum_chunk (per R : Int) (w : Nat) :
    ((R ≤ (w : Int) → 0 ≤ R →
      ((List.range w).map (fun (i : Nat) => per + if (i : Int) < R then 1 else 0)).sum =
        (w : Int) * per + R)) ∧
    ((w : Int) ≤ R →
      ((List.range w).map (fun (i : Nat) => per + if (i : Int) < R then 1 else 0)).sum =
        (w : Int) * per + (w : Int)) := by
  induction w with
  | zero =>
    constructor
    · intro h1 h2
      have hR : R = 0 := le_antisymm h1 h2
      simp [hR]
    · intro h1
      simp
  | succ k ih =>
    have hr : List.range (k + 1) = List.range k ++ [k] := by
      exact List.range_succ k
    constructor
    · intro h1 h2
      rw [hr, List.map_append, List.sum_append]
      simp only [List.map_cons, List.map_nil, List.sum_cons, List.sum_nil, add_zero]
      by_cases hk : (k : Int) < R
      · have hR : R = (k : Int) + 1 := by
          push_cast at h1
          omega
        rw [if_pos hk, ih.2 (by omega), hR]
        push_cast
        ring
      · rw [if_neg hk, ih.1 (by omega) h2]
        push_cast
        ring
    · intro h1
      push_cast at h1
      rw [hr, List.map_append, List.sum_append]
      simp only [List.map_cons, List.map_nil, List.sum_cons, List.sum_nil, add_zero]
      rw [if_pos (by omega), ih.2 (by omega)]
      push_cast
      ring

theorem simChunks_size_sum (cfg : SimulationConfig) (hw : 1 ≤ cfg.n_cores) :
    ((simChunks cfg).map SimChunk.chunk_size).sum = cfg.n_simulations := by
  have hwpos : (0 : Int) < cfg.n_cores := hw
  have hR0 : 0 ≤ Int.fmod cfg.n_simulations cfg.n_cores :=
    Int.fmod_nonneg' _ hwpos
  have hRlt : Int.fmod cfg.n_simulations cfg.n_cores < cfg.n_cores :=
    Int.fmod_lt_of_pos _ hwpos
  have hcast : ((cfg.n_cores.toNat : Nat) : Int) = cfg.n_cores :=
    Int.toNat_of_nonneg (by omega)
  have hfinal := (range_sum_chunk (Int.fdiv cfg.n_simulations cfg.n_cores)
    (Int.fmod cfg.n_simulations cfg.n_cores) cfg.n_cores.toNat).1
    (by omega) hR0
  calc ((simChunks cfg).map SimChunk.chunk_size).sum
      = ((List.range cfg.n_cores.toNat).map
          (fun (i : Nat) => Int.fdiv cfg.n_simulations cfg.n_cores +
            if (i : Int) < Int.fmod cfg.n_simulations cfg.n_cores then 1 else 0)).sum := by
        rw [simChunks, List.map_map]
        rfl
    _ = ((cfg.n_cores.toNat : Nat) : Int) * Int.fdiv cfg.n_simulations cfg.n_cores +
          Int.fmod cfg.n_simulations cfg.n_cores := hfinal
    _ = cfg.n_simulations := by
        rw [hcast]
        have hdm := Int.fdiv_add_fmod cfg.n_simulations cfg.n_cores
        linarith

theorem simChunks_spec (cfg : SimulationConfig) (hw : 1 ≤ cfg.n_cores) :
    ∀ ch ∈ simChunks cfg,
      0 ≤ ch.core_id ∧ ch.core_id < cfg.n_cores ∧
      ch.seed = cfg.random_seed + ch.core_id ∧
      (ch.core_id < Int.fmod cfg.n_simulations cfg.n_cores →
        ch.chunk_size = Int.fdiv cfg.n_simulations cfg.n_cores + 1) ∧
      (Int.fmod cfg.n_simulations cfg.n_cores ≤ ch.core_id →
        ch.chunk_size = Int.fdiv cfg.n_simulations cfg.n_cores) := by
  intro ch hch
  rw [simChunks] at hch
  obtain ⟨i, hi, rfl⟩ := List.mem_map.1 hch
  rw [List.mem_range] at hi
  dsimp only
  refine ⟨Int.ofNat_nonneg i, by omega, rfl, ?_, ?_⟩
  · intro hlt
    rw [if_pos hlt]
  · intro hle
    rw [if_neg (by omega), add_zero]

theorem simChunks_size_nonneg (cfg : SimulationConfig)
    (hn : 0 ≤ cfg.n_simulations) (hw : 1 ≤ cfg.n_cores) :
    ∀ ch ∈ simChunks cfg, 0 ≤ ch.chunk_size := by
  intro ch hch
  rw [simChunks] at hch
  obtain ⟨i, hi, rfl⟩ := List.mem_map.1 hch
  have hper : 0 ≤ Int.fdiv cfg.n_simulations cfg.n_cores := by
    rw [Int.fdiv_eq_ediv _ (by omega)]
    exact Int.ediv_nonneg hn (by omega)
  dsimp only
  split <;> omega

theorem sum_toNat_of_nonneg (L : List Int) (h : ∀ x ∈ L, 0 ≤ x) :
    (((L.map Int.toNat).sum : Nat) : Int) = L.sum := by
  induction L with
  | nil => simp
  | cons x xs ih =>
    simp only [List.map_cons, List.sum_cons, Nat.cast_add]
    rw [Int.toNat_of_nonneg (h x (List.mem_cons_self _ _)),
      ih (fun y hy => h y (List.mem_cons_of_mem _ hy))]

theorem allPositions_length (g : RandFamily) (cfg : SimulationConfig)
    (st : DriverState) :
    (allPositions g cfg st).length =
      ((simChunks cfg).map (fun ch => ch.chunk_size.toNat)).sum := by
  rw [allPositions, chunkResults, List.length_flatten, List.map_map, List.map_map]
  congr 1
  apply List.map_congr_left
  intro ch hch
  simp [runChunk]

/-- Shape of a successful call: with a valid pool and a non-empty
distribution, `predict_race_outcome` returns the aggregated record. -/
theorem predictOutcome_ok (g : RandFamily) (cfg : SimulationConfig)
    (st : DriverState) (hw : ¬ (cfg.n_cores < 1)) (x : Int × ℚ)
    (xs : List (Int × ℚ))
    (hdist : calcPositionDistribution (allPositions g cfg st) = x :: xs) :
    predictOutcome g cfg st = Except.ok
      { predicted_position := (pickMax x xs).1
        confidence := calcConfidence (x :: xs) (pickMax x xs).1
        position_distribution := x :: xs
        expected_lap_time := (allLapTimes g cfg st).sum /
          ((allLapTimes g cfg st).length : ℚ)
        recommended_action := (determineAction st (pickMax x xs).1 (x :: xs)).1
        action_confidence := (determineAction st (pickMax x xs).1 (x :: xs)).2
        simulations_run := ((allPositions g cfg st).length : Int) } := by
  have h0 : ¬ (cfg.n_cores = 0) := by omega
  simp only [predictOutcome, if_neg h0, if_neg hw, hdist, getMostLikelyPosition]

/-! ### C6: the dispatcher partitions the work exactly. -/

/-- C6: for n_simulations > 0 and n_cores ≥ 1, the dispatcher builds
`n_cores` chunks, each of size floor(n/w) — workers with index below
R = n mod w receiving one extra trial — the chunk sizes sum to
n_simulations, the merged sample has exactly n_simulations trials, and the
returned result's simulations_run equals the requested n_simulations. -/
theorem chunking_partitions_work (g : RandFamily) (cfg : SimulationConfig)
    (st : DriverState) (hn : 0 < cfg.n_simulations) (hw : 1 ≤ cfg.n_cores) :
    (simChunks cfg).length = cfg.n_cores.toNat ∧
    (∀ ch ∈ simChunks cfg,
      (ch.core_id < Int.fmod cfg.n_simulations cfg.n_cores →
        ch.chunk_size = Int.fdiv cfg.n_simulations cfg.n_cores + 1) ∧
      (Int.fmod cfg.n_simulations cfg.n_cores ≤ ch.core_id →
        ch.chunk_size = Int.fdiv cfg.n_simulations cfg.n_cores)) ∧
    ((simChunks cfg).map SimChunk.chunk_size).sum = cfg.n_simulations ∧
    ((allPositions g cfg st).length : Int) = cfg.n_simulations ∧
    (∃ res, predictOutcome g cfg st = Except.ok res ∧
      res.simulations_run = cfg.n_simulations) := by
  have hlen : ((allPositions g cfg st).length : Int) = cfg.n_simulations := by
    rw [allPositions_length]
    have h1 : (simChunks cfg).map (fun ch => ch.chunk_size.toNat) =
        ((simChunks cfg).map SimChunk.chunk_size).map Int.toNat := by
      rw [List.map_map]
      rfl
    rw [h1, sum_toNat_of_nonneg _ ?_, simChunks_size_sum cfg hw]
    intro v hv
    obtain ⟨ch, hch, rfl⟩ := List.mem_map.1 hv
    exact simChunks_size_nonneg cfg (by omega) hw ch hch
  have hne : allPositions g cfg st ≠ [] := by
    intro h
    rw [h] at hlen
    simp at hlen
    omega
  obtain ⟨x, xs, hdist⟩ : ∃ x xs,
      calcPositionDistribution (allPositions g cfg st) = x :: xs := by
    rcases hd : calcPositionDistribution (allPositions g cfg st) with _ | ⟨x, xs⟩
    · exact absurd ((calcDist_eq_nil _).1 hd) hne
    · exact ⟨x, xs, rfl⟩
  refine ⟨by simp [simChunks], ?_, simChunks_size_sum cfg hw, hlen, ?_⟩
  · intro ch hch
    have h := simChunks_spec cfg hw ch hch
    exact ⟨h.2.2.2.1, h.2.2.2.2⟩
  · refine ⟨_, predictOutcome_ok g cfg st (by omega) x xs hdist, ?_⟩
    dsimp only
    exact hlen

theorem chunking_partitions_work_witness :
    ((0 : Int) < 5 ∧ (1 : Int) ≤ 2) ∧
    ((simChunks ⟨5, 2, 9/10, 7⟩).length = (2 : Int).toNat ∧
    (∀ ch ∈ simChunks ⟨5, 2, 9/10, 7⟩,
      (ch.core_id < Int.fmod 5 2 → ch.chunk_size = Int.fdiv 5 2 + 1) ∧
      (Int.fmod 5 2 ≤ ch.core_id → ch.chunk_size = Int.fdiv 5 2)) ∧
    ((simChunks ⟨5, 2, 9/10, 7⟩).map SimChunk.chunk_size).sum = 5 ∧
    ((allPositions (fun _ _ => ⟨0, 0, 1, 0⟩) ⟨5, 2, 9/10, 7⟩
        ⟨1, 10, 5, 12, "SOFT", 60, [90], 0⟩).length : Int) = 5 ∧
    (∃ res, predictOutcome (fun _ _ => ⟨0, 0, 1, 0⟩) ⟨5, 2, 9/10, 7⟩
        ⟨1, 10, 5, 12, "SOFT", 60, [90], 0⟩ = Except.ok res ∧
      res.simulations_run = 5)) :=
  ⟨⟨by norm_num, by norm_num⟩,
   chunking_partitions_work (fun _ _ => ⟨0, 0, 1, 0⟩) ⟨5, 2, 9/10, 7⟩
     ⟨1, 10, 5, 12, "SOFT", 60, [90], 0⟩ (by norm_num) (by norm_num)⟩

/-! ### C2: there is no config validation. -/

/-- C2 counterexample: a config with confidence_level = 2 (outside (0,1])
is not rejected — the call succeeds and produces a result object; a config
with n_simulations = 0 does not fail immediately with an InvalidConfig
error: the dispatch phase runs (over empty chunks) and the call fails only
inside aggregation, with the untyped ValueError raised by `max()` on the
empty distribution; and a config with n_workers = 0 fails with the untyped
ZeroDivisionError of the chunk-size floor division at line 96, not with an
InvalidConfig error. -/
theorem invalid_config_counterexample :
    ¬ ((0 : ℚ) < 2 ∧ (2 : ℚ) ≤ 1) ∧
    isOkResult (predictOutcome (fun _ _ => ⟨0, 0, 1, 0⟩) ⟨1, 1, 2, 0⟩
      ⟨1, 1, 10, 0, "MEDIUM", 0, [], 0⟩) = true ∧
    predictOutcome (fun _ _ => ⟨0, 0, 1, 0⟩) ⟨0, 1, 9/10, 0⟩
      ⟨1, 1, 10, 0, "MEDIUM", 0, [], 0⟩ = Except.error emptyMaxError ∧
    predictOutcome (fun _ _ => ⟨0, 0, 1, 0⟩) ⟨4, 0, 9/10, 0⟩
      ⟨1, 1, 10, 0, "MEDIUM", 0, [], 0⟩ = Except.error zeroDivError := by
  refine ⟨by norm_num, ?_, ?_, ?_⟩
  · have hchunks : simChunks ⟨1, 1, 2, 0⟩ = [⟨0, 1, 0⟩] := by decide
    have htr : parallelTrial ⟨1, 1, 10, 0, "MEDIUM", 0, [], 0⟩ ⟨0, 0, 1, 0⟩ =
        (90, 9) := by
      norm_num [parallelTrial, avgLapTime, tireDegRatePar, parFastThreshold,
        parSlowThreshold, parIncidentProb, parNeutralTier, sampleChoice]
    have hpos : allPositions (fun _ _ => ⟨0, 0, 1, 0⟩) ⟨1, 1, 2, 0⟩
        ⟨1, 1, 10, 0, "MEDIUM", 0, [], 0⟩ = [9] := by
      simp [allPositions, chunkResults, runChunk, hchunks, htr]
    have hdist : calcPositionDistribution
        (allPositions (fun _ _ => ⟨0, 0, 1, 0⟩) ⟨1, 1, 2, 0⟩
          ⟨1, 1, 10, 0, "MEDIUM", 0, [], 0⟩) = [(9, 1)] := by
      rw [hpos]
      norm_num [calcPositionDistribution, uniqueSorted]
    rw [predictOutcome_ok (fun _ _ => ⟨0, 0, 1, 0⟩) ⟨1, 1, 2, 0⟩
      ⟨1, 1, 10, 0, "MEDIUM", 0, [], 0⟩ (by norm_num) (9, 1) [] hdist]
    rfl
  · rfl
  · rfl

/-- C2 (amended): the engine performs no configuration validation and has no
InvalidConfig error type. For n_simulations ≤ 0 with an effective worker
count ≥ 1 the dispatch phase runs over empty chunks and the call then fails
inside aggregation, with the untyped ValueError of `max()` on the empty
distribution, producing no result object; an effective worker count of 0
fails with the untyped ZeroDivisionError raised by the chunk-size floor
division, before the pool is constructed; a negative effective worker count
survives the chunk computation and fails with the pool constructor's
untyped ValueError; and confidence_level is never read, so any value —
also one outside (0,1] — leaves the outcome unchanged and a result object
is produced whenever the n_simulations > 0 run succeeds. -/
theorem no_config_validation (g : RandFamily) (cfg : SimulationConfig)
    (st : DriverState) (q : ℚ) :
    (cfg.n_simulations ≤ 0 → 1 ≤ cfg.n_cores →
      predictOutcome g cfg st = Except.error emptyMaxError) ∧
    (cfg.n_cores = 0 → predictOutcome g cfg st = Except.error zeroDivError) ∧
    (cfg.n_cores < 0 → predictOutcome g cfg st = Except.error poolError) ∧
    predictOutcome g { cfg with confidence_level := q } st =
      predictOutcome g cfg st := by
  refine ⟨?_, ?_, ?_, ?_⟩
  · intro hn hw
    have hper_le : Int.fdiv cfg.n_simulations cfg.n_cores ≤ 0 := by
      by_contra hcon
      push_neg at hcon
      have h1 := Int.fdiv_add_fmod cfg.n_simulations cfg.n_cores
      have hR0 : 0 ≤ Int.fmod cfg.n_simulations cfg.n_cores :=
        Int.fmod_nonneg' _ (by omega)
      nlinarith
    have hper_lt : 0 < Int.fmod cfg.n_simulations cfg.n_cores →
        Int.fdiv cfg.n_simulations cfg.n_cores < 0 := by
      intro hRpos
      by_contra hcon
      push_neg at hcon
      have h1 := Int.fdiv_add_fmod cfg.n_simulations cfg.n_cores
      nlinarith
    have hsize : ∀ ch ∈ simChunks cfg, ch.chunk_size ≤ 0 := by
      intro ch hch
      obtain ⟨hc0, hclt, hseed, hlt, hle⟩ := simChunks_spec cfg hw ch hch
      by_cases hcase : ch.core_id < Int.fmod cfg.n_simulations cfg.n_cores
      · rw [hlt hcase]
        have hf := hper_lt (by omega)
        omega
      · rw [hle (by omega)]
        exact hper_le
    have hempty : allPositions g cfg st = [] := by
      rw [allPositions, chunkResults]
      apply List.eq_nil_iff_forall_not_mem.2
      intro p hp
      rw [List.mem_flatten] at hp
      obtain ⟨lp, hlp, hpin⟩ := hp
      rw [List.map_map, List.mem_map] at hlp
      obtain ⟨ch, hch, rfl⟩ := hlp
      have h0 : ch.chunk_size.toNat = 0 := by
        have := hsize ch hch
        omega
      simp [runChunk, h0] at hpin
    simp only [predictOutcome, if_neg (show ¬ (cfg.n_cores = 0) by omega),
      if_neg (show ¬ (cfg.n_cores < 1) by omega), hempty]
    rfl
  · intro hz
    simp only [predictOutcome, if_pos hz]
  · intro hw
    simp only [predictOutcome, if_neg (show ¬ (cfg.n_cores = 0) by omega),
      if_pos (show cfg.n_cores < 1 by omega)]
  · rcases cfg with ⟨n, c, l, s⟩
    rfl

theorem no_config_validation_witness :
    predictOutcome (fun _ _ => ⟨0, 0, 1, 0⟩) ⟨0, 1, 9/10, 0⟩
      ⟨1, 1, 10, 0, "MEDIUM", 0, [], 0⟩ = Except.error emptyMaxError ∧
    predictOutcome (fun _ _ => ⟨0, 0, 1, 0⟩) ⟨4, 0, 9/10, 0⟩
      ⟨1, 1, 10, 0, "MEDIUM", 0, [], 0⟩ = Except.error zeroDivError ∧
    predictOutcome (fun _ _ => ⟨0, 0, 1, 0⟩) ⟨4, -2, 9/10, 0⟩
      ⟨1, 1, 10, 0, "MEDIUM", 0, [], 0⟩ = Except.error poolError ∧
    predictOutcome (fun _ _ => ⟨0, 0, 1, 0⟩)
        { (⟨1, 1, 9/10, 0⟩ : SimulationConfig) with confidence_level := 5 }
        ⟨1, 1, 10, 0, "MEDIUM", 0, [], 0⟩ =
      predictOutcome (fun _ _ => ⟨0, 0, 1, 0⟩) ⟨1, 1, 9/10, 0⟩
        ⟨1, 1, 10, 0, "MEDIUM", 0, [], 0⟩ :=
  ⟨(no_config_validation (fun _ _ => ⟨0, 0, 1, 0⟩) ⟨0, 1, 9/10, 0⟩
      ⟨1, 1, 10, 0, "MEDIUM", 0, [], 0⟩ 5).1 (by norm_num) (by norm_num),
   (no_config_validation (fun _ _ => ⟨0, 0, 1, 0⟩) ⟨4, 0, 9/10, 0⟩
      ⟨1, 1, 10, 0, "MEDIUM", 0, [], 0⟩ 5).2.1 (by norm_num),
   (no_config_validation (fun _ _ => ⟨0, 0, 1, 0⟩) ⟨4, -2, 9/10, 0⟩
      ⟨1, 1, 10, 0, "MEDIUM", 0, [], 0⟩ 5).2.2.1 (by norm_num),
   (no_config_validation (fun _ _ => ⟨0, 0, 1, 0⟩) ⟨1, 1, 9/10, 0⟩
      ⟨1, 1, 10, 0, "MEDIUM", 0, [], 0⟩ 5).2.2.2⟩
